import Mathlib

/-!
Verification of the card-abstraction layer of scdaemon (src/scd/card.c).

The development shallowly embeds the C source: bytes are naturals
(machine unsigned char values are below 256, which appears as a
hypothesis where it matters), buffers are lists of naturals read through
List.getD exactly at the offsets the C pointer arithmetic reads,
fallible functions return Except or carry an explicit error code, and
the external OpenSC / logging collaborators are modelled by an oracle
structure World whose fields give the return values of the collaborator
calls.  The scanning loop of find_simple_tlv is embedded with a
structural fuel argument equal to the length parameter; the bound
proved for scanner_iterations shows the loop consumes at least two
bytes per iteration, so the fuel is never exhausted (fuel irrelevance
is proved as well).
-/

/-- Error codes of the OpenSC transport layer, as the switch in
map_sc_err distinguishes them: the six named codes, success, and an
arbitrary further code. -/
inductive SCErr where
  | ok
  | notSupported
  | pkcs15AppNotFound
  | outOfMemory
  | cardNotPresent
  | cardRemoved
  | invalidCard
  | other (n : Int)
deriving DecidableEq

/-- GnuPG error codes used by card.c: 0 (ok), the codes map_sc_err
produces, the codes the card operations produce directly, and an
arbitrary further code for values forwarded from a backend. -/
inductive GnupgRC where
  | ok
  | notSupported
  | noPKCS15App
  | outOfCore
  | cardNotPresent
  | cardRemoved
  | invalidCard
  | cardError
  | invalidValue
  | invalidIndex
  | cardNotInitialized
  | unsupportedOperation
  | other (n : Int)
deriving DecidableEq

/-- Decidable equality of Except results, used to evaluate the embedded
fallible functions on concrete inputs. -/
instance {e a : Type} [DecidableEq e] [DecidableEq a] : DecidableEq (Except e a) := fun x y =>
  match x, y with
  | Except.error u, Except.error v =>
    if h : u = v then isTrue (by rw [h]) else isFalse (fun hc => h (Except.error.inj hc))
  | Except.ok u, Except.ok v =>
    if h : u = v then isTrue (by rw [h]) else isFalse (fun hc => h (Except.ok.inj hc))
  | Except.error _, Except.ok _ => isFalse (fun hc => Except.noConfusion hc)
  | Except.ok _, Except.error _ => isFalse (fun hc => Except.noConfusion hc)

/-- Embedding of map_sc_err (card.c lines 35-50): the switch over the
transport return code. -/
def map_sc_err : SCErr → GnupgRC
  | SCErr.ok => GnupgRC.ok
  | SCErr.notSupported => GnupgRC.notSupported
  | SCErr.pkcs15AppNotFound => GnupgRC.noPKCS15App
  | SCErr.outOfMemory => GnupgRC.outOfCore
  | SCErr.cardNotPresent => GnupgRC.cardNotPresent
  | SCErr.cardRemoved => GnupgRC.cardRemoved
  | SCErr.invalidCard => GnupgRC.invalidCard
  | SCErr.other _ => GnupgRC.cardError

/-- Embedding of the scanning loop of find_simple_tlv (card.c lines
192-214).  buf is the byte buffer, tag the target tag, off the offset
of s from the buffer start, n the remaining length.  The fuel argument
makes the recursion structural; find_simple_tlv passes the length as
fuel, which suffices because every iteration removes at least two bytes
from n (see scanner_iterations_bound and tlv_loop_fuel_irrelevant).
The result is the pair of the C result (offset of the value and its
declared length, or none) and the number of records skipped. -/
def find_simple_tlv_loop (buf : List Nat) (tag : Nat) : Nat → Nat → Nat → Option (Nat × Nat) × Nat
  | 0, _, _ => (none, 0)
  | fuel + 1, off, n =>
    if n < 2 then (none, 0)
    else if buf.getD (off + 1) 0 = 255 then
      if n - 2 < 2 then (none, 0)
      else if buf.getD off 0 = tag then
        (some (off + 4, (buf.getD (off + 2) 0) <<< 8 ||| buf.getD (off + 3) 0), 0)
      else if (buf.getD (off + 2) 0) <<< 8 ||| buf.getD (off + 3) 0 > n - 4 then (none, 0)
      else
        Prod.map id (· + 1)
          (find_simple_tlv_loop buf tag fuel
            (off + 4 + ((buf.getD (off + 2) 0) <<< 8 ||| buf.getD (off + 3) 0))
            (n - 4 - ((buf.getD (off + 2) 0) <<< 8 ||| buf.getD (off + 3) 0)))
    else if buf.getD off 0 = tag then (some (off + 2, buf.getD (off + 1) 0), 0)
    else if buf.getD (off + 1) 0 > n - 2 then (none, 0)
    else
      Prod.map id (· + 1)
        (find_simple_tlv_loop buf tag fuel
          (off + 2 + buf.getD (off + 1) 0)
          (n - 2 - buf.getD (off + 1) 0))

/-- Embedding of find_simple_tlv (card.c lines 184-215): locate a
simple TLV object with the given tag in the first length bytes of
buffer; on success return the offset of the value and its declared
length (the function does not check that the value fits, as the C
comment notes). -/
def find_simple_tlv (buffer : List Nat) (length : Nat) (tag : Nat) : Option (Nat × Nat) :=
  (find_simple_tlv_loop buffer tag length 0 length).1

/-- Number of TLV records the loop of find_simple_tlv skips over. -/
def find_simple_tlv_iterations (buffer : List Nat) (length : Nat) (tag : Nat) : Nat :=
  (find_simple_tlv_loop buffer tag length 0 length).2

/-- One hexadecimal digit, upper case, as sprintf %02X renders it. -/
def hexDigit (n : Nat) : Char :=
  if n < 10 then Char.ofNat (0x30 + n) else Char.ofNat (0x41 + (n - 10))

/-- One byte as two upper-case hexadecimal digits (sprintf "%02X" for a
value below 256). -/
def hexByte (b : Nat) : String :=
  String.mk [hexDigit (b / 16), hexDigit (b % 16)]

/-- The hex rendering loop of find_iccsn (card.c lines 250-255): the n
value bytes starting at offset voff, each as two upper-case hex digits,
preceded by the checks on n and the allocation of the result string
(alloc_ok models whether xtrymalloc succeeds). -/
def iccsnRender (alloc_ok : Bool) (buffer : List Nat) (voff n : Nat) : Except GnupgRC String :=
  if n = 0 then Except.error GnupgRC.cardError
  else if alloc_ok = false then Except.error GnupgRC.outOfCore
  else Except.ok (String.join (((buffer.drop voff).take n).map hexByte))

/-- Embedding of find_iccsn (card.c lines 221-257): look up tag 0x5A,
check the declared length against the remaining buffer with the exact
BMI testcard workaround (declared length 13, one byte missing), and
render the value in hex. -/
def find_iccsn (alloc_ok : Bool) (buffer : List Nat) (length : Nat) : Except GnupgRC String :=
  match find_simple_tlv buffer length 0x5A with
  | none => Except.error GnupgRC.cardError
  | some (voff, n) =>
    if n > length - voff then
      if n = 0x0D ∧ (length - voff) + 1 = n then iccsnRender alloc_ok buffer voff (n - 1)
      else Except.error GnupgRC.cardError
    else iccsnRender alloc_ok buffer voff n

lemma tlv_loop_iters_le (buf : List Nat) (tag : Nat) :
    ∀ fuel off n, (find_simple_tlv_loop buf tag fuel off n).2 ≤ n / 2 := by
  intro fuel
  induction fuel with
  | zero => intro off n; simp [find_simple_tlv_loop]
  | succ f ih =>
    intro off n
    rw [find_simple_tlv_loop]
    split_ifs with h1 h2 h3 h4 h5 h6 h7
    · simp
    · simp
    · simp
    · simp
    · have h := ih (off + 4 + ((buf.getD (off + 2) 0) <<< 8 ||| buf.getD (off + 3) 0))
        (n - 4 - ((buf.getD (off + 2) 0) <<< 8 ||| buf.getD (off + 3) 0))
      simp only [Prod.map, id] at *
      omega
    · simp
    · simp
    · have h := ih (off + 2 + buf.getD (off + 1) 0) (n - 2 - buf.getD (off + 1) 0)
      simp only [Prod.map, id] at *
      omega

lemma tlv_loop_fuel_irrelevant (buf : List Nat) (tag : Nat) :
    ∀ f g off n, n ≤ f → n ≤ g →
      find_simple_tlv_loop buf tag f off n = find_simple_tlv_loop buf tag g off n := by
  intro f
  induction f with
  | zero =>
    intro g off n hf hg
    cases g with
    | zero => rfl
    | succ g =>
      have hn : n = 0 := Nat.le_zero.mp hf
      subst hn
      simp [find_simple_tlv_loop]
  | succ f ih =>
    intro g off n hf hg
    cases g with
    | zero =>
      have hn : n = 0 := Nat.le_zero.mp hg
      subst hn
      simp [find_simple_tlv_loop]
    | succ g =>
      rw [find_simple_tlv_loop, find_simple_tlv_loop]
      split_ifs with h1 h2 h3 h4 h5 h6
      · rfl
      · rfl
      · rfl
      · rfl
      · rw [ih g _ _ (by omega) (by omega)]
      · rfl
      · rfl
      · rw [ih g _ _ (by omega) (by omega)]

lemma tlv_loop_frame (buf ext : List Nat) (tag : Nat) :
    ∀ fuel off n, off + n ≤ buf.length →
      find_simple_tlv_loop (buf ++ ext) tag fuel off n = find_simple_tlv_loop buf tag fuel off n := by
  intro fuel
  induction fuel with
  | zero => intro off n _; rfl
  | succ f ih =>
    intro off n hle
    rw [find_simple_tlv_loop, find_simple_tlv_loop]
    by_cases h1 : n < 2
    · rw [if_pos h1, if_pos h1]
    rw [if_neg h1, if_neg h1]
    have hoff0 : (buf ++ ext).getD off 0 = buf.getD off 0 :=
      List.getD_append _ _ _ _ (by omega)
    have hoff1 : (buf ++ ext).getD (off + 1) 0 = buf.getD (off + 1) 0 :=
      List.getD_append _ _ _ _ (by omega)
    rw [hoff0, hoff1]
    by_cases h2 : buf.getD (off + 1) 0 = 255
    · rw [if_pos h2, if_pos h2]
      by_cases h3 : n - 2 < 2
      · rw [if_pos h3, if_pos h3]
      rw [if_neg h3, if_neg h3]
      have hoff2 : (buf ++ ext).getD (off + 2) 0 = buf.getD (off + 2) 0 :=
        List.getD_append _ _ _ _ (by omega)
      have hoff3 : (buf ++ ext).getD (off + 3) 0 = buf.getD (off + 3) 0 :=
        List.getD_append _ _ _ _ (by omega)
      rw [hoff2, hoff3]
      by_cases h4 : buf.getD off 0 = tag
      · rw [if_pos h4, if_pos h4]
      rw [if_neg h4, if_neg h4]
      by_cases h5 : (buf.getD (off + 2) 0) <<< 8 ||| buf.getD (off + 3) 0 > n - 4
      · rw [if_pos h5, if_pos h5]
      rw [if_neg h5, if_neg h5, ih _ _ (by omega)]
    · rw [if_neg h2, if_neg h2]
      by_cases h4 : buf.getD off 0 = tag
      · rw [if_pos h4, if_pos h4]
      rw [if_neg h4, if_neg h4]
      by_cases h5 : buf.getD (off + 1) 0 > n - 2
      · rw [if_pos h5, if_pos h5]
      rw [if_neg h5, if_neg h5, ih _ _ (by omega)]

lemma tlv_loop_some_bounds (buf : List Nat) (tag : Nat) :
    ∀ fuel off n voff len, (find_simple_tlv_loop buf tag fuel off n).1 = some (voff, len) →
      off + 2 ≤ voff ∧ voff ≤ off + n := by
  intro fuel
  induction fuel with
  | zero => intro off n voff len h; simp [find_simple_tlv_loop] at h
  | succ f ih =>
    intro off n voff len h
    rw [find_simple_tlv_loop] at h
    by_cases h1 : n < 2
    · rw [if_pos h1] at h; simp at h
    rw [if_neg h1] at h
    by_cases h2 : buf.getD (off + 1) 0 = 255
    · rw [if_pos h2] at h
      by_cases h3 : n - 2 < 2
      · rw [if_pos h3] at h; simp at h
      rw [if_neg h3] at h
      by_cases h4 : buf.getD off 0 = tag
      · rw [if_pos h4] at h
        simp at h
        omega
      rw [if_neg h4] at h
      by_cases h5 : (buf.getD (off + 2) 0) <<< 8 ||| buf.getD (off + 3) 0 > n - 4
      · rw [if_pos h5] at h; simp at h
      rw [if_neg h5] at h
      simp only [Prod.map, id] at h
      have hb := ih _ _ _ _ h
      omega
    · rw [if_neg h2] at h
      by_cases h4 : buf.getD off 0 = tag
      · rw [if_pos h4] at h
        simp at h
        omega
      rw [if_neg h4] at h
      by_cases h5 : buf.getD (off + 1) 0 > n - 2
      · rw [if_pos h5] at h; simp at h
      rw [if_neg h5] at h
      simp only [Prod.map, id] at h
      have hb := ih _ _ _ _ h
      omega

lemma slice_append (buf ext : List Nat) (o k : Nat) (h : o + k ≤ buf.length) :
    ((buf ++ ext).drop o).take k = (buf.drop o).take k := by
  rw [List.drop_append_of_le_length (by omega)]
  rw [List.take_append_of_le_length (by simp; omega)]

lemma find_iccsn_overlong_error (a : Bool) (buffer : List Nat) (L voff len : Nat)
    (hscan : find_simple_tlv buffer L 0x5A = some (voff, len))
    (hover : len > L - voff)
    (hnot : ¬(len = 0x0D ∧ (L - voff) + 1 = len)) :
    find_iccsn a buffer L = Except.error GnupgRC.cardError := by
  unfold find_iccsn
  rw [hscan]
  dsimp only
  rw [if_pos hover, if_neg hnot]

lemma iccsnRender_frame (a : Bool) (buf ext : List Nat) (voff k : Nat)
    (h : voff + k ≤ buf.length) :
    iccsnRender a (buf ++ ext) voff k = iccsnRender a buf voff k := by
  unfold iccsnRender
  split_ifs with h1 h2
  · rfl
  · rfl
  · rw [slice_append buf ext voff k h]

lemma find_iccsn_frame (a : Bool) (buf ext : List Nat) (L : Nat) (hL : L ≤ buf.length) :
    find_iccsn a (buf ++ ext) L = find_iccsn a buf L := by
  unfold find_iccsn find_simple_tlv
  rw [tlv_loop_frame buf ext 0x5A L 0 L (by omega)]
  cases hscan : (find_simple_tlv_loop buf 0x5A L 0 L).1 with
  | none => rfl
  | some p =>
    obtain ⟨voff, n⟩ := p
    have hb := tlv_loop_some_bounds buf 0x5A L 0 L voff n hscan
    dsimp only
    by_cases hover : n > L - voff
    · rw [if_pos hover, if_pos hover]
      by_cases hbmi : n = 0x0D ∧ (L - voff) + 1 = n
      · rw [if_pos hbmi, if_pos hbmi]
        exact iccsnRender_frame a buf ext voff (n - 1) (by omega)
      · rw [if_neg hbmi, if_neg hbmi]
    · rw [if_neg hover, if_neg hover]
      exact iccsnRender_frame a buf ext voff n (by omega)

lemma find_iccsn_fits_ok (buffer : List Nat) (L voff n : Nat)
    (hscan : find_simple_tlv buffer L 0x5A = some (voff, n))
    (hfits : n ≤ L - voff) (hn0 : n ≠ 0) :
    find_iccsn true buffer L
      = Except.ok (String.join (((buffer.drop voff).take n).map hexByte)) := by
  unfold find_iccsn
  rw [hscan]
  dsimp only
  rw [if_neg (by omega)]
  unfold iccsnRender
  rw [if_neg hn0, if_neg (by simp)]

/-- Claim C1: whenever a TLV record declares a value length larger than
the bytes remaining after its tag and length fields (excluding the
13/1-short special case), the scan of the GDO file fails with the
structure error GNUPG_Card_Error, and neither the scanner nor the
extractor ever reads a byte outside the first length bytes of the
buffer (their results are unchanged by any extension of the buffer);
this holds in particular when the over-long record is the one whose tag
matches the target. -/
theorem scanner_overlong_safe :
    (∀ (buffer ext : List Nat) (length tag : Nat), length ≤ buffer.length →
        find_simple_tlv (buffer ++ ext) length tag = find_simple_tlv buffer length tag)
    ∧ (∀ (a : Bool) (buffer ext : List Nat) (length : Nat), length ≤ buffer.length →
        find_iccsn a (buffer ++ ext) length = find_iccsn a buffer length)
    ∧ (∀ (a : Bool) (buffer : List Nat) (length voff len : Nat),
        find_simple_tlv buffer length 0x5A = some (voff, len) →
        len > length - voff →
        ¬(len = 0x0D ∧ (length - voff) + 1 = len) →
        find_iccsn a buffer length = Except.error GnupgRC.cardError)
    ∧ (∀ (a : Bool) (buffer : List Nat) (length : Nat),
        find_simple_tlv buffer length 0x5A = none →
        find_iccsn a buffer length = Except.error GnupgRC.cardError) := by
  refine ⟨?_, ?_, ?_, ?_⟩
  · intro buffer ext length tag h
    unfold find_simple_tlv
    rw [tlv_loop_frame buffer ext tag length 0 length (by omega)]
  · intro a buffer ext length h
    exact find_iccsn_frame a buffer ext length h
  · intro a buffer length voff len hscan hover hnot
    exact find_iccsn_overlong_error a buffer length voff len hscan hover hnot
  · intro a buffer length hscan
    unfold find_iccsn
    rw [hscan]

/-- Claim C1 witness: the frame property and the over-long failure at
concrete inputs, applying scanner_overlong_safe. -/
theorem scanner_overlong_safe_witness :
    find_simple_tlv ([0x5A, 1, 7] ++ [9, 9]) 3 0x5A = find_simple_tlv [0x5A, 1, 7] 3 0x5A
    ∧ find_iccsn true ([0x5A, 1, 7] ++ [9, 9]) 3 = find_iccsn true [0x5A, 1, 7] 3
    ∧ find_iccsn true [0x5A, 5, 1] 3 = Except.error GnupgRC.cardError
    ∧ find_iccsn true [0x30, 1, 7] 3 = Except.error GnupgRC.cardError :=
  ⟨scanner_overlong_safe.1 [0x5A, 1, 7] [9, 9] 3 0x5A (by decide),
   scanner_overlong_safe.2.1 true [0x5A, 1, 7] [9, 9] 3 (by decide),
   scanner_overlong_safe.2.2.1 true [0x5A, 5, 1] 3 2 5 (by decide) (by decide) (by decide),
   scanner_overlong_safe.2.2.2 true [0x30, 1, 7] 3 (by decide)⟩

/-- Claim C5: when the 0x5A record declares a value length of exactly
13 (0x0D) and exactly 12 bytes remain after the tag header, find_iccsn
succeeds using 12 value bytes (the BMI testcard workaround); for every
other combination with the declared length exceeding the remaining
bytes it fails with GNUPG_Card_Error. -/
theorem bmi_workaround_exact :
    (∀ (buffer : List Nat) (length voff : Nat),
        find_simple_tlv buffer length 0x5A = some (voff, 13) →
        length - voff = 12 →
        find_iccsn true buffer length
          = Except.ok (String.join (((buffer.drop voff).take 12).map hexByte)))
    ∧ (∀ (a : Bool) (buffer : List Nat) (length voff len : Nat),
        find_simple_tlv buffer length 0x5A = some (voff, len) →
        len > length - voff →
        ¬(len = 13 ∧ (length - voff) + 1 = len) →
        find_iccsn a buffer length = Except.error GnupgRC.cardError) := by
  constructor
  · intro buffer length voff hscan hrem
    unfold find_iccsn
    rw [hscan]
    dsimp only
    rw [if_pos (by omega), if_pos (by omega)]
    unfold iccsnRender
    rw [if_neg (by omega), if_neg (by simp)]
  · intro a buffer length voff len hscan hover hnot
    exact find_iccsn_overlong_error a buffer length voff len hscan hover hnot

/-- Claim C5 witness: a buffer with declared length 13 and 12 remaining
bytes succeeds with 12 bytes, and declared length 5 with 1 remaining
byte fails, applying bmi_workaround_exact. -/
theorem bmi_workaround_exact_witness :
    find_iccsn true [0x5A, 0x0D, 1, 2, 3, 4, 5, 6, 7, 8, 9, 10, 11, 12] 14
      = Except.ok (String.join (((([0x5A, 0x0D, 1, 2, 3, 4, 5, 6, 7, 8, 9, 10, 11, 12] :
          List Nat).drop 2).take 12).map hexByte))
    ∧ find_iccsn false [0x5A, 5, 1] 3 = Except.error GnupgRC.cardError :=
  ⟨bmi_workaround_exact.1 [0x5A, 0x0D, 1, 2, 3, 4, 5, 6, 7, 8, 9, 10, 11, 12] 14 2
      (by decide) (by decide),
   bmi_workaround_exact.2 false [0x5A, 5, 1] 3 2 5 (by decide) (by decide) (by decide)⟩

set_option maxRecDepth 4000 in
/-- Claim C7: when the 0x5A value passes the length checks, find_iccsn
renders each value byte as exactly two upper-case hexadecimal digits,
concatenated in order with no separators and no embedded null; in
particular the buffer 5A 04 DE AD BE EF yields the serial "DEADBEEF". -/
theorem serial_hex_rendering :
    (∀ (buffer : List Nat) (length voff n : Nat),
        find_simple_tlv buffer length 0x5A = some (voff, n) →
        n ≤ length - voff → n ≠ 0 →
        find_iccsn true buffer length
          = Except.ok (String.join (((buffer.drop voff).take n).map hexByte)))
    ∧ (∀ b, b < 256 → (hexByte b).length = 2
        ∧ (hexByte b).toList.all (fun c => ("0123456789ABCDEF".toList).contains c) = true)
    ∧ find_iccsn true [0x5A, 0x04, 0xDE, 0xAD, 0xBE, 0xEF] 6 = Except.ok "DEADBEEF" := by
  refine ⟨?_, by decide, by decide⟩
  intro buffer length voff n hscan hfits hn0
  exact find_iccsn_fits_ok buffer length voff n hscan hfits hn0

/-- Claim C7 witness: the rendering equation at a concrete buffer and
the digit property at a concrete byte, applying serial_hex_rendering. -/
theorem serial_hex_rendering_witness :
    find_iccsn true [0x5A, 0x02, 0xAB, 0xCD] 4
      = Except.ok (String.join ((([0x5A, 0x02, 0xAB, 0xCD] : List Nat).drop 2).take 2 |>.map hexByte))
    ∧ (hexByte 0xDE).length = 2 :=
  ⟨serial_hex_rendering.1 [0x5A, 0x02, 0xAB, 0xCD] 4 2 2 (by decide) (by decide) (by decide),
   (serial_hex_rendering.2.1 0xDE (by decide)).1⟩

/-- Claim C8: map_sc_err is a pure total function: each enumerated
transport code maps to its taxonomy value, every non-enumerated code
maps to the generic GNUPG_Card_Error, and the mapping is defined on
every code. -/
theorem map_sc_err_total :
    map_sc_err SCErr.ok = GnupgRC.ok
    ∧ map_sc_err SCErr.notSupported = GnupgRC.notSupported
    ∧ map_sc_err SCErr.pkcs15AppNotFound = GnupgRC.noPKCS15App
    ∧ map_sc_err SCErr.outOfMemory = GnupgRC.outOfCore
    ∧ map_sc_err SCErr.cardNotPresent = GnupgRC.cardNotPresent
    ∧ map_sc_err SCErr.cardRemoved = GnupgRC.cardRemoved
    ∧ map_sc_err SCErr.invalidCard = GnupgRC.invalidCard
    ∧ (∀ n : Int, map_sc_err (SCErr.other n) = GnupgRC.cardError)
    ∧ (∀ rc : SCErr, ∃ e : GnupgRC, map_sc_err rc = e) :=
  ⟨rfl, rfl, rfl, rfl, rfl, rfl, rfl, fun _ => rfl, fun rc => ⟨map_sc_err rc, rfl⟩⟩

/-- Claim C8 witness: the default case at a concrete unlisted code,
applying map_sc_err_total. -/
theorem map_sc_err_total_witness :
    map_sc_err (SCErr.other 12345) = GnupgRC.cardError :=
  map_sc_err_total.2.2.2.2.2.2.2.1 12345

/-- Claim C10: the scanning loop of find_simple_tlv terminates on every
input: each iteration either returns or consumes at least the two
tag-and-length bytes, the loop skips at most length / 2 records, and
the fuel bound used by the embedding is irrelevant (any fuel at least
the length gives the same run). -/
theorem scanner_iterations_bound :
    (∀ (buffer : List Nat) (length tag : Nat),
        find_simple_tlv_iterations buffer length tag ≤ length / 2)
    ∧ (∀ (buffer : List Nat) (length tag extra : Nat),
        find_simple_tlv_loop buffer tag (length + extra) 0 length
          = find_simple_tlv_loop buffer tag length 0 length) := by
  constructor
  · intro buffer length tag
    exact tlv_loop_iters_le buffer tag length 0 length
  · intro buffer length tag extra
    exact tlv_loop_fuel_irrelevant buffer tag (length + extra) length 0 length (by omega) (by omega)

/-- Claim C10 witness: the iteration bound at a concrete buffer with a
zero-length record, applying scanner_iterations_bound. -/
theorem scanner_iterations_bound_witness :
    find_simple_tlv_iterations [0x30, 0, 0x30, 0, 0x5A, 1, 7] 7 0x5A ≤ 7 / 2 :=
  scanner_iterations_bound.1 [0x30, 0, 0x30, 0, 0x5A, 1, 7] 7 0x5A

/-- A TLV record as the spec describes one: a tag byte, a choice of
plain or extended (0xFF-marked two-byte big-endian) length encoding,
and the value bytes. -/
structure TLVRec where
  tag : Nat
  ext : Bool
  value : List Nat
deriving DecidableEq

/-- The tag and length bytes of a record. -/
def recHeader (r : TLVRec) : List Nat :=
  if r.ext then [r.tag, 255, r.value.length >>> 8, r.value.length % 256]
  else [r.tag, r.value.length]

/-- A whole encoded record: header followed by the value bytes. -/
def encodeRec (r : TLVRec) : List Nat := recHeader r ++ r.value

/-- A well-formed TLV buffer: the concatenation of encoded records. -/
def encodeTLV (rs : List TLVRec) : List Nat := (rs.map encodeRec).flatten

/-- Well-formedness of one record: the tag is a byte, a plain length
fits in one byte and is not the 0xFF extended-length marker, an
extended length fits in two bytes. -/
def recWF (r : TLVRec) : Prop :=
  r.tag < 256 ∧ (r.ext = true → r.value.length < 65536)
    ∧ (r.ext = false → r.value.length < 255)

/-- Well-formedness is decidable, so witnesses can check it. -/
instance (r : TLVRec) : Decidable (recWF r) := by
  unfold recWF
  infer_instance

/-- Specification-side description of the scan (from the spec text):
walk the records in order and return the offset of the value and the
value length of the first record carrying the target tag. -/
def scanSpec (T : Nat) : List TLVRec → Nat → Option (Nat × Nat)
  | [], _ => none
  | r :: rest, off =>
    if r.tag = T then some (off + (recHeader r).length, r.value.length)
    else scanSpec T rest (off + (encodeRec r).length)

lemma encodeTLV_cons (r : TLVRec) (rs : List TLVRec) :
    encodeTLV (r :: rs) = encodeRec r ++ encodeTLV rs := by
  simp [encodeTLV]

lemma encodeTLV_append (xs ys : List TLVRec) :
    encodeTLV (xs ++ ys) = encodeTLV xs ++ encodeTLV ys := by
  simp [encodeTLV]

lemma getD_append_add (l l' : List Nat) (i : Nat) :
    (l ++ l').getD (l.length + i) 0 = l'.getD i 0 := by
  rw [List.getD_append_right l l' 0 (l.length + i) (by omega), Nat.add_sub_cancel_left]

lemma getD_append_self (l l' : List Nat) :
    (l ++ l').getD l.length 0 = l'.getD 0 0 := by
  simpa using getD_append_add l l' 0

lemma shiftRead_eq (L : Nat) : ((L >>> 8) <<< 8) ||| (L % 256) = L := by
  apply Nat.eq_of_testBit_eq
  intro i
  rw [Nat.testBit_or, Nat.testBit_shiftLeft, Nat.testBit_shiftRight]
  have h256 : (256 : Nat) = 2 ^ 8 := by norm_num
  rw [h256, Nat.testBit_mod_two_pow]
  by_cases h : 8 ≤ i
  · have h1 : 8 + (i - 8) = i := by omega
    rw [h1]
    simp [h, Nat.not_lt.mpr h]
  · simp [h, Nat.lt_of_not_le h]

lemma lor_as_add (a b : Nat) (hb : b < 256) : (a <<< 8) ||| b = 256 * a + b := by
  have h1 : (256 * a + b) >>> 8 = a := by
    rw [Nat.shiftRight_eq_div_pow]
    have h2 : (2 : Nat) ^ 8 = 256 := by norm_num
    rw [h2]
    omega
  have h3 : (256 * a + b) % 256 = b := by omega
  have h4 := shiftRead_eq (256 * a + b)
  rw [h1, h3] at h4
  exact h4

lemma tlv_loop_encode (T : Nat) :
    ∀ (rs : List TLVRec) (pre : List Nat) (fuel : Nat),
      (∀ x ∈ rs, recWF x) → (encodeTLV rs).length ≤ fuel →
      (find_simple_tlv_loop (pre ++ encodeTLV rs) T fuel pre.length (encodeTLV rs).length).1
        = scanSpec T rs pre.length := by
  intro rs
  induction rs with
  | nil =>
    intro pre fuel _ _
    cases fuel with
    | zero => rfl
    | succ f =>
      show (find_simple_tlv_loop (pre ++ encodeTLV []) T (f + 1) pre.length
          (encodeTLV []).length).1 = _
      rw [find_simple_tlv_loop, if_pos (by simp [encodeTLV])]
      rfl
  | cons r rest ih =>
    intro pre fuel hwf hfuel
    obtain ⟨htagB, hextT, hextF⟩ := hwf r (List.mem_cons_self r rest)
    have hwrest : ∀ x ∈ rest, recWF x := fun x hx => hwf x (List.mem_cons_of_mem r hx)
    rw [encodeTLV_cons] at hfuel ⊢
    rw [scanSpec]
    by_cases hext : r.ext = true
    · have hH : encodeRec r
          = r.tag :: 255 :: (r.value.length >>> 8) :: (r.value.length % 256) :: r.value := by
        simp [encodeRec, recHeader, hext]
      have hlenRec : (encodeRec r ++ encodeTLV rest).length
          = r.value.length + (encodeTLV rest).length + 4 := by
        rw [hH]
        simp only [List.cons_append, List.length_cons, List.length_append]
        try omega
      have hbuf : pre ++ (encodeRec r ++ encodeTLV rest)
          = pre ++ (r.tag :: 255 :: (r.value.length >>> 8) :: (r.value.length % 256)
              :: (r.value ++ encodeTLV rest)) := by
        rw [hH]
        simp
      rw [hlenRec] at hfuel
      rw [hlenRec, hbuf]
      cases fuel with
      | zero => exact absurd hfuel (by omega)
      | succ f =>
        rw [find_simple_tlv_loop]
        have hr0 : (pre ++ (r.tag :: 255 :: (r.value.length >>> 8) :: (r.value.length % 256)
            :: (r.value ++ encodeTLV rest))).getD pre.length 0 = r.tag := by
          rw [getD_append_self]
          rfl
        have hr1 : (pre ++ (r.tag :: 255 :: (r.value.length >>> 8) :: (r.value.length % 256)
            :: (r.value ++ encodeTLV rest))).getD (pre.length + 1) 0 = 255 := by
          rw [getD_append_add]
          rfl
        have hr2 : (pre ++ (r.tag :: 255 :: (r.value.length >>> 8) :: (r.value.length % 256)
            :: (r.value ++ encodeTLV rest))).getD (pre.length + 2) 0 = r.value.length >>> 8 := by
          rw [getD_append_add]
          rfl
        have hr3 : (pre ++ (r.tag :: 255 :: (r.value.length >>> 8) :: (r.value.length % 256)
            :: (r.value ++ encodeTLV rest))).getD (pre.length + 3) 0 = r.value.length % 256 := by
          rw [getD_append_add]
          rfl
        rw [if_neg (by omega)]
        rw [hr1, if_pos rfl]
        rw [if_neg (by omega)]
        rw [hr0, hr2, hr3, shiftRead_eq]
        by_cases htag : r.tag = T
        · rw [if_pos htag, if_pos htag]
          simp [recHeader, hext]
        · rw [if_neg htag, if_neg htag]
          rw [if_neg (show ¬(r.value.length
              > r.value.length + (encodeTLV rest).length + 4 - 4) by omega)]
          have harg : r.value.length + (encodeTLV rest).length + 4 - 4 - r.value.length
              = (encodeTLV rest).length := by omega
          rw [harg]
          have hpre : pre ++ (r.tag :: 255 :: (r.value.length >>> 8) :: (r.value.length % 256)
              :: (r.value ++ encodeTLV rest))
              = (pre ++ (r.tag :: 255 :: (r.value.length >>> 8) :: (r.value.length % 256)
                  :: r.value)) ++ encodeTLV rest := by
            simp
          rw [hpre]
          have hoff : pre.length + 4 + r.value.length
              = (pre ++ (r.tag :: 255 :: (r.value.length >>> 8) :: (r.value.length % 256)
                  :: r.value)).length := by
            simp only [List.length_append, List.length_cons]
            omega
          rw [hoff]
          simp only [Prod.map_fst, id_eq]
          rw [ih (pre ++ (r.tag :: 255 :: (r.value.length >>> 8) :: (r.value.length % 256)
              :: r.value)) f hwrest (by omega)]
          congr 1
          rw [hH]
          simp only [List.length_append, List.length_cons]
          try omega
    · have hextf : r.ext = false := by
        revert hext
        cases r.ext <;> simp
      have hvb : r.value.length < 255 := hextF hextf
      have hH : encodeRec r = r.tag :: r.value.length :: r.value := by
        simp [encodeRec, recHeader, hextf]
      have hlenRec : (encodeRec r ++ encodeTLV rest).length
          = r.value.length + (encodeTLV rest).length + 2 := by
        rw [hH]
        simp only [List.cons_append, List.length_cons, List.length_append]
        try omega
      have hbuf : pre ++ (encodeRec r ++ encodeTLV rest)
          = pre ++ (r.tag :: r.value.length :: (r.value ++ encodeTLV rest)) := by
        rw [hH]
        simp
      rw [hlenRec] at hfuel
      rw [hlenRec, hbuf]
      cases fuel with
      | zero => exact absurd hfuel (by omega)
      | succ f =>
        rw [find_simple_tlv_loop]
        have hr0 : (pre ++ (r.tag :: r.value.length
            :: (r.value ++ encodeTLV rest))).getD pre.length 0 = r.tag := by
          rw [getD_append_self]
          rfl
        have hr1 : (pre ++ (r.tag :: r.value.length
            :: (r.value ++ encodeTLV rest))).getD (pre.length + 1) 0 = r.value.length := by
          rw [getD_append_add]
          rfl
        rw [if_neg (by omega)]
        rw [hr1, if_neg (by omega)]
        rw [hr0]
        by_cases htag : r.tag = T
        · rw [if_pos htag, if_pos htag]
          simp [recHeader, hextf]
        · rw [if_neg htag, if_neg htag]
          rw [if_neg (show ¬(r.value.length
              > r.value.length + (encodeTLV rest).length + 2 - 2) by omega)]
          have harg : r.value.length + (encodeTLV rest).length + 2 - 2 - r.value.length
              = (encodeTLV rest).length := by omega
          rw [harg]
          have hpre : pre ++ (r.tag :: r.value.length :: (r.value ++ encodeTLV rest))
              = (pre ++ (r.tag :: r.value.length :: r.value)) ++ encodeTLV rest := by
            simp
          rw [hpre]
          have hoff : pre.length + 2 + r.value.length
              = (pre ++ (r.tag :: r.value.length :: r.value)).length := by
            simp only [List.length_append, List.length_cons]
            omega
          rw [hoff]
          simp only [Prod.map_fst, id_eq]
          rw [ih (pre ++ (r.tag :: r.value.length :: r.value)) f hwrest (by omega)]
          congr 1
          rw [hH]
          simp only [List.length_append, List.length_cons]
          try omega

lemma scanSpec_none (T : Nat) :
    ∀ (rs : List TLVRec) (off : Nat), (∀ x ∈ rs, x.tag ≠ T) → scanSpec T rs off = none := by
  intro rs
  induction rs with
  | nil => intro off _; rfl
  | cons r rest ih =>
    intro off h
    rw [scanSpec, if_neg (h r (List.mem_cons_self r rest))]
    exact ih _ (fun x hx => h x (List.mem_cons_of_mem r hx))

lemma scanSpec_found (T : Nat) :
    ∀ (rs1 : List TLVRec) (r : TLVRec) (rs2 : List TLVRec) (off : Nat),
      (∀ x ∈ rs1, x.tag ≠ T) → r.tag = T →
      scanSpec T (rs1 ++ r :: rs2) off
        = some (off + (encodeTLV rs1).length + (recHeader r).length, r.value.length) := by
  intro rs1
  induction rs1 with
  | nil =>
    intro r rs2 off _ hr
    rw [List.nil_append, scanSpec, if_pos hr]
    simp [encodeTLV]
  | cons a rs1 ih =>
    intro r rs2 off h hr
    rw [List.cons_append, scanSpec, if_neg (h a (List.mem_cons_self a rs1))]
    rw [ih r rs2 (off + (encodeRec a).length) (fun x hx => h x (List.mem_cons_of_mem a hx)) hr]
    have harith : off + (encodeRec a).length + (encodeTLV rs1).length
        = off + (encodeTLV (a :: rs1)).length := by
      rw [encodeTLV_cons]
      simp only [List.length_append]
      omega
    rw [harith]

lemma encode_slice (rs1 : List TLVRec) (r : TLVRec) (rs2 : List TLVRec) :
    ((encodeTLV (rs1 ++ r :: rs2)).drop ((encodeTLV rs1).length + (recHeader r).length)).take
        r.value.length = r.value := by
  rw [encodeTLV_append, encodeTLV_cons, encodeRec]
  have hassoc : encodeTLV rs1 ++ ((recHeader r ++ r.value) ++ encodeTLV rs2)
      = (encodeTLV rs1 ++ recHeader r) ++ (r.value ++ encodeTLV rs2) := by
    simp [List.append_assoc]
  rw [hassoc]
  have hlen : (encodeTLV rs1).length + (recHeader r).length
      = (encodeTLV rs1 ++ recHeader r).length := by
    simp [List.length_append]
  rw [hlen, List.drop_left, List.take_left]

lemma scanner_ext_len (t b2 b3 : Nat) (v : List Nat) :
    find_simple_tlv (t :: 255 :: b2 :: b3 :: v) (4 + v.length) t
      = some (4, (b2 <<< 8) ||| b3) := by
  unfold find_simple_tlv
  have h4 : 4 + v.length = (3 + v.length) + 1 := by omega
  rw [h4, find_simple_tlv_loop]
  rw [if_neg (by omega)]
  have hb1 : (t :: 255 :: b2 :: b3 :: v).getD (0 + 1) 0 = 255 := rfl
  rw [hb1, if_pos rfl]
  rw [if_neg (by omega)]
  have hb0 : (t :: 255 :: b2 :: b3 :: v).getD 0 0 = t := rfl
  rw [hb0, if_pos rfl]
  have hb2 : (t :: 255 :: b2 :: b3 :: v).getD (0 + 2) 0 = b2 := rfl
  have hb3 : (t :: 255 :: b2 :: b3 :: v).getD (0 + 3) 0 = b3 := rfl
  rw [hb2, hb3]

/-- Claim C6: on a well-formed TLV buffer, find_simple_tlv returns the
offset and declared length of the value of the first record carrying
the target tag, and the declared length counts exactly its value bytes
(so the value slice is the record's value); it returns none when no
record carries the tag; and a length byte of 0xFF makes the following
two bytes be read as a big-endian extended length. -/
theorem scanner_wellformed_correct :
    (∀ (rs1 : List TLVRec) (r : TLVRec) (rs2 : List TLVRec) (T : Nat),
        (∀ x ∈ rs1 ++ r :: rs2, recWF x) → r.tag = T → (∀ x ∈ rs1, x.tag ≠ T) →
        find_simple_tlv (encodeTLV (rs1 ++ r :: rs2)) (encodeTLV (rs1 ++ r :: rs2)).length T
            = some ((encodeTLV rs1).length + (recHeader r).length, r.value.length)
          ∧ ((encodeTLV (rs1 ++ r :: rs2)).drop
                ((encodeTLV rs1).length + (recHeader r).length)).take r.value.length
              = r.value)
    ∧ (∀ (rs : List TLVRec) (T : Nat), (∀ x ∈ rs, recWF x) → (∀ x ∈ rs, x.tag ≠ T) →
        find_simple_tlv (encodeTLV rs) (encodeTLV rs).length T = none)
    ∧ (∀ (t b2 b3 : Nat) (v : List Nat),
        find_simple_tlv (t :: 255 :: b2 :: b3 :: v) (4 + v.length) t
            = some (4, (b2 <<< 8) ||| b3)
          ∧ (b3 < 256 → (b2 <<< 8) ||| b3 = 256 * b2 + b3)) := by
  refine ⟨?_, ?_, ?_⟩
  · intro rs1 r rs2 T hwf htagT hnone
    constructor
    · unfold find_simple_tlv
      have h := tlv_loop_encode T (rs1 ++ r :: rs2) []
        (encodeTLV (rs1 ++ r :: rs2)).length hwf (le_refl _)
      simp only [List.nil_append, List.length_nil] at h
      rw [h]
      rw [scanSpec_found T rs1 r rs2 0 hnone htagT]
      simp
    · exact encode_slice rs1 r rs2
  · intro rs T hwf hnone
    unfold find_simple_tlv
    have h := tlv_loop_encode T rs [] (encodeTLV rs).length hwf (le_refl _)
    simp only [List.nil_append, List.length_nil] at h
    rw [h]
    exact scanSpec_none T rs 0 hnone
  · intro t b2 b3 v
    exact ⟨scanner_ext_len t b2 b3 v, fun hb => lor_as_add b2 b3 hb⟩

/-- Claim C6 witness: the scanner on a concrete well-formed two-record
buffer (one plain record, one extended-length record), applying
scanner_wellformed_correct. -/
theorem scanner_wellformed_correct_witness :
    find_simple_tlv (encodeTLV [⟨0x12, false, [1, 2]⟩, ⟨0x34, true, [7]⟩])
        (encodeTLV [⟨0x12, false, [1, 2]⟩, ⟨0x34, true, [7]⟩]).length 0x34
      = some ((encodeTLV [⟨0x12, false, [1, 2]⟩]).length
          + (recHeader ⟨0x34, true, [7]⟩).length, 1)
    ∧ find_simple_tlv (encodeTLV [⟨0x12, false, [1, 2]⟩])
        (encodeTLV [⟨0x12, false, [1, 2]⟩]).length 0x99 = none
    ∧ find_simple_tlv [0x77, 255, 1, 2, 3] (4 + [(3 : Nat)].length) 0x77
      = some (4, (1 <<< 8) ||| 2) :=
  ⟨(scanner_wellformed_correct.1 [⟨0x12, false, [1, 2]⟩] ⟨0x34, true, [7]⟩ [] 0x34
      (by decide) (by decide) (by decide)).1,
   scanner_wellformed_correct.2.1 [⟨0x12, false, [1, 2]⟩] 0x99 (by decide) (by decide),
   (scanner_wellformed_correct.2.2 0x77 1 2 [3]).1⟩

/-- The capability table a backend bind installs: which of the four
operation function pointers are non-null. -/
structure Caps where
  enum_keypairs : Bool
  read_cert : Bool
  sign : Bool
  decipher : Bool
deriving DecidableEq

/-- The fnc structure of a card: the initialized flag and the function
pointers installed by the backend bind. -/
structure Fnc where
  initialized : Bool
  caps : Caps
deriving DecidableEq

/-- The CARD state: reader number and which resources are held (the
transport context, the connected and locked card, the bound PKCS-15
structure), plus the dispatch table. -/
structure CARD where
  reader : Nat
  ctx : Bool
  scard : Bool
  p15card : Bool
  fnc : Fnc
deriving DecidableEq

/-- Oracle for the external OpenSC collaborators: the return codes and
data their calls produce during one session. -/
structure World where
  alloc_ok : Bool
  establish_rc : SCErr
  reader_count : Nat
  card_present : Bool
  connect_rc : SCErr
  lock_rc : SCErr
  pkcs15_bind_rc : SCErr
  p15_caps : Caps
  dinsig_caps : Caps
  p15_serial_number : Option String
  select_rc : SCErr
  gdo_is_working_ef : Bool
  gdo_is_transparent : Bool
  gdo_size : Nat
  read_rc : Int
  gdo : List Nat
  enum_keypairs_rc : GnupgRC
  read_cert_rc : GnupgRC
  sign_rc : GnupgRC
  decipher_rc : GnupgRC

/-- The release actions card_close can perform, in the order the code
performs them. -/
inductive Release where
  | unbindP15
  | unlockCard
  | disconnectCard
  | releaseCtx
  | freeCard
deriving DecidableEq

/-- Embedding of card_close (card.c lines 155-178): release, in order,
the PKCS-15 binding if present, the locked connection if present, the
transport context if present, and the card structure itself; a null
card is a no-op.  The result lists the release actions performed. -/
def card_close : Option CARD → List Release
  | none => []
  | some c =>
    (if c.p15card then [Release.unbindP15] else [])
      ++ (if c.scard then [Release.unlockCard, Release.disconnectCard] else [])
      ++ (if c.ctx then [Release.releaseCtx] else [])
      ++ [Release.freeCard]

/-- The zeroed fnc structure xtrycalloc produces. -/
def fncZero : Fnc := ⟨false, ⟨false, false, false, false⟩⟩

/-- Embedding of card_open (card.c lines 89-151): allocate the zeroed
card structure, establish the transport context, check that reader 0
exists, detect card presence, connect, and lock; on any failure tear
the partial card down with card_close and return the mapped error.
The result is the return code, the session on success, and the
release actions card_close performed on failure. -/
def card_open (w : World) : GnupgRC × Option CARD × List Release :=
  if w.alloc_ok = false then (GnupgRC.outOfCore, none, [])
  else if w.establish_rc ≠ SCErr.ok then
    (map_sc_err w.establish_rc, none, card_close (some ⟨0, false, false, false, fncZero⟩))
  else if w.reader_count ≤ 0 then
    (GnupgRC.cardError, none, card_close (some ⟨0, true, false, false, fncZero⟩))
  else if w.card_present = false then
    (GnupgRC.cardNotPresent, none, card_close (some ⟨0, true, false, false, fncZero⟩))
  else if w.connect_rc ≠ SCErr.ok then
    (map_sc_err w.connect_rc, none, card_close (some ⟨0, true, false, false, fncZero⟩))
  else if w.lock_rc ≠ SCErr.ok then
    (map_sc_err w.lock_rc, none, card_close (some ⟨0, true, true, false, fncZero⟩))
  else (GnupgRC.ok, some ⟨0, true, true, false, fncZero⟩, [])

/-- Embedding of the lazy backend binding block of
card_get_serial_and_stamp (card.c lines 283-302): mark the card
initialized, try sc_pkcs15_bind (any failure leaves p15card null and is
not fatal), then install the PKCS-15 table if a PKCS-15 application was
bound and the DIN-SIG table otherwise. -/
def bindBackend (w : World) (card : CARD) : CARD :=
  let c1 : CARD := { card with fnc := { card.fnc with initialized := true } }
  let c2 : CARD :=
    if w.pkcs15_bind_rc = SCErr.ok then { c1 with p15card := true }
    else { c1 with p15card := false }
  if c2.p15card then { c2 with fnc := { c2.fnc with caps := w.p15_caps } }
  else { c2 with fnc := { c2.fnc with caps := w.dinsig_caps } }

/-- The quirk-B test of card.c line 371: the first two characters of
the rendered serial are both the letter F (the C code reads characters
0 and 1 of the NUL-terminated string). -/
def startsFF (s : String) : Bool :=
  match s.toList with
  | 'F' :: 'F' :: _ => true
  | _ => false

/-- Result of card_get_serial_and_stamp: return code, the out
parameters serial and stamp, the card state afterwards, and whether
this call attempted the backend binding (called sc_pkcs15_bind). -/
structure SerialOut where
  rc : GnupgRC
  serial : Option String
  stamp : Nat
  card : Option CARD
  bind_attempted : Bool
deriving DecidableEq

/-- The serial canonicalization of card.c lines 346-389: take the
find_iccsn result; on success replace the German placeholder serial by
FF0100 followed by the EF(TokenInfo) serial (empty when unavailable)
when a PKCS-15 application is bound, else prepend FF0000 when the
rendered serial already starts with FF. -/
def serialQuirks (w : World) (c : CARD) (ba : Bool) : Except GnupgRC String → SerialOut
  | Except.error e => ⟨e, none, 0, some c, ba⟩
  | Except.ok s =>
    if c.p15card = true ∧ s = "D27600000000000000000000" then
      if w.alloc_ok then
        ⟨GnupgRC.ok, some ("FF0100" ++ (w.p15_serial_number.getD "")), 0, some c, ba⟩
      else ⟨GnupgRC.outOfCore, none, 0, some c, ba⟩
    else if startsFF s then
      if w.alloc_ok then ⟨GnupgRC.ok, some ("FF0000" ++ s), 0, some c, ba⟩
      else ⟨GnupgRC.outOfCore, none, 0, some c, ba⟩
    else ⟨GnupgRC.ok, some s, 0, some c, ba⟩

/-- The GDO-file part of card_get_serial_and_stamp (card.c lines
305-389): select EF 2F02, check its type, structure and size, read it,
extract the ICCSN and canonicalize it. -/
def serialBody (w : World) (c : CARD) (ba : Bool) : SerialOut :=
  if w.select_rc ≠ SCErr.ok then ⟨GnupgRC.cardError, none, 0, some c, ba⟩
  else if ¬(w.gdo_is_working_ef = true ∧ w.gdo_is_transparent = true) then
    ⟨GnupgRC.cardError, none, 0, some c, ba⟩
  else if w.gdo_size = 0 ∨ 256 ≤ w.gdo_size then ⟨GnupgRC.cardError, none, 0, some c, ba⟩
  else if w.read_rc < 0 then ⟨GnupgRC.cardError, none, 0, some c, ba⟩
  else if w.read_rc ≠ (w.gdo_size : Int) then ⟨GnupgRC.cardError, none, 0, some c, ba⟩
  else serialQuirks w c ba (find_iccsn w.alloc_ok w.gdo w.gdo_size)

/-- Embedding of card_get_serial_and_stamp (card.c lines 268-390):
null-pointer check, the one-time lazy backend binding, then the GDO
read and serial canonicalization.  The stamp is always 0 here, as in
the code. -/
def card_get_serial_and_stamp (w : World) : Option CARD → SerialOut
  | none => ⟨GnupgRC.invalidValue, none, 0, none, false⟩
  | some card =>
    if card.fnc.initialized then serialBody w card false
    else serialBody w (bindBackend w card) true

/-- Result of one of the four public card operations: return code,
card state afterwards, and whether the call attempted the backend
binding. -/
structure OpOut where
  rc : GnupgRC
  card : Option CARD
  bind_attempted : Bool
deriving DecidableEq

/-- Embedding of card_enum_keypairs (card.c lines 403-426): null and
index pre-checks, the initialized check, the capability check, then
the forwarded backend call (its result comes from the oracle). -/
def card_enum_keypairs (w : World) (card? : Option CARD) (idx : Int)
    (keygrip_ok : Bool) : OpOut :=
  match card? with
  | none => ⟨GnupgRC.invalidValue, none, false⟩
  | some c =>
    if keygrip_ok = false then ⟨GnupgRC.invalidValue, some c, false⟩
    else if idx < 0 then ⟨GnupgRC.invalidIndex, some c, false⟩
    else if c.fnc.initialized = false then ⟨GnupgRC.cardNotInitialized, some c, false⟩
    else if c.fnc.caps.enum_keypairs = false then ⟨GnupgRC.unsupportedOperation, some c, false⟩
    else ⟨w.enum_keypairs_rc, some c, false⟩

/-- Embedding of card_read_cert (card.c lines 433-449). -/
def card_read_cert (w : World) (card? : Option CARD)
    (certidstr_ok cert_ok ncert_ok : Bool) : OpOut :=
  match card? with
  | none => ⟨GnupgRC.invalidValue, none, false⟩
  | some c =>
    if certidstr_ok = false ∨ cert_ok = false ∨ ncert_ok = false then
      ⟨GnupgRC.invalidValue, some c, false⟩
    else if c.fnc.initialized = false then ⟨GnupgRC.cardNotInitialized, some c, false⟩
    else if c.fnc.caps.read_cert = false then ⟨GnupgRC.unsupportedOperation, some c, false⟩
    else ⟨w.read_cert_rc, some c, false⟩

/-- Embedding of card_sign (card.c lines 455-477). -/
def card_sign (w : World) (card? : Option CARD) (indata_ok : Bool) (indatalen : Nat)
    (outdata_ok outdatalen_ok pincb_ok : Bool) : OpOut :=
  match card? with
  | none => ⟨GnupgRC.invalidValue, none, false⟩
  | some c =>
    if indata_ok = false ∨ indatalen = 0 ∨ outdata_ok = false ∨ outdatalen_ok = false
        ∨ pincb_ok = false then
      ⟨GnupgRC.invalidValue, some c, false⟩
    else if c.fnc.initialized = false then ⟨GnupgRC.cardNotInitialized, some c, false⟩
    else if c.fnc.caps.sign = false then ⟨GnupgRC.unsupportedOperation, some c, false⟩
    else ⟨w.sign_rc, some c, false⟩

/-- Embedding of card_decipher (card.c lines 483-505). -/
def card_decipher (w : World) (card? : Option CARD) (indata_ok : Bool) (indatalen : Nat)
    (outdata_ok outdatalen_ok pincb_ok : Bool) : OpOut :=
  match card? with
  | none => ⟨GnupgRC.invalidValue, none, false⟩
  | some c =>
    if indata_ok = false ∨ indatalen = 0 ∨ outdata_ok = false ∨ outdatalen_ok = false
        ∨ pincb_ok = false then
      ⟨GnupgRC.invalidValue, some c, false⟩
    else if c.fnc.initialized = false then ⟨GnupgRC.cardNotInitialized, some c, false⟩
    else if c.fnc.caps.decipher = false then ⟨GnupgRC.unsupportedOperation, some c, false⟩
    else ⟨w.decipher_rc, some c, false⟩

lemma serialQuirks_proj (w : World) (c : CARD) (ba : Bool) (r : Except GnupgRC String) :
    (serialQuirks w c ba r).card = some c ∧ (serialQuirks w c ba r).bind_attempted = ba := by
  cases r with
  | error e => exact ⟨rfl, rfl⟩
  | ok s =>
    dsimp only [serialQuirks]
    split_ifs <;> exact ⟨rfl, rfl⟩

lemma serialBody_proj (w : World) (c : CARD) (ba : Bool) :
    (serialBody w c ba).card = some c ∧ (serialBody w c ba).bind_attempted = ba := by
  unfold serialBody
  split_ifs <;> first
    | exact ⟨rfl, rfl⟩
    | exact serialQuirks_proj w c ba _

lemma bindBackend_initialized (w : World) (c : CARD) :
    (bindBackend w c).fnc.initialized = true := by
  unfold bindBackend
  split_ifs <;> rfl

/-- A base oracle for concrete witnesses: a present card, all calls
succeeding, a GDO file carrying the German placeholder ICCSN, and a
PKCS-15 serial "ABC123". -/
def wBase : World :=
  { alloc_ok := true
    establish_rc := SCErr.ok
    reader_count := 1
    card_present := true
    connect_rc := SCErr.ok
    lock_rc := SCErr.ok
    pkcs15_bind_rc := SCErr.ok
    p15_caps := ⟨true, true, true, true⟩
    dinsig_caps := ⟨true, true, true, false⟩
    p15_serial_number := some "ABC123"
    select_rc := SCErr.ok
    gdo_is_working_ef := true
    gdo_is_transparent := true
    gdo_size := 14
    read_rc := 14
    gdo := [0x5A, 0x0C, 0xD2, 0x76, 0, 0, 0, 0, 0, 0, 0, 0, 0, 0]
    enum_keypairs_rc := GnupgRC.ok
    read_cert_rc := GnupgRC.ok
    sign_rc := GnupgRC.ok
    decipher_rc := GnupgRC.ok }

/-- wBase with no card present in the reader. -/
def wNoCard : World := { wBase with card_present := false }

/-- wBase with a GDO file whose ICCSN starts with the reserved FF
marker. -/
def wFF : World :=
  { wBase with gdo := [0x5A, 0x04, 0xFF, 0x11, 0x22, 0x33], gdo_size := 6, read_rc := 6 }

/-- A session whose backend binding has not happened yet. -/
def cardUnbound : CARD := ⟨0, true, true, false, ⟨false, ⟨true, true, true, true⟩⟩⟩

/-- A session bound to the PKCS-15 backend. -/
def cardP15 : CARD := ⟨0, true, true, true, ⟨true, ⟨true, true, true, true⟩⟩⟩

/-- Claim C9: card_open on a reader that reports no card present fails
with exactly GNUPG_Card_Not_Present and tears the partial session down
(releasing the context and the card structure only); card_close on a
null session is a no-op; and on every failing open the teardown
releases exactly the resources acquired so far: never a PKCS-15
binding, the context exactly when it was established, the lock and
connection exactly when the connect succeeded, and the card structure
exactly when it was allocated. -/
theorem open_close_resources :
    (∀ w : World, w.alloc_ok = true → w.establish_rc = SCErr.ok → 0 < w.reader_count →
        w.card_present = false →
        card_open w = (GnupgRC.cardNotPresent, none, [Release.releaseCtx, Release.freeCard]))
    ∧ card_close none = []
    ∧ (∀ w : World, (card_open w).1 ≠ GnupgRC.ok →
        (card_open w).2.1 = none
        ∧ Release.unbindP15 ∉ (card_open w).2.2
        ∧ (Release.releaseCtx ∈ (card_open w).2.2
            ↔ (w.alloc_ok = true ∧ w.establish_rc = SCErr.ok))
        ∧ (Release.unlockCard ∈ (card_open w).2.2
            ↔ (w.alloc_ok = true ∧ w.establish_rc = SCErr.ok ∧ 0 < w.reader_count
                ∧ w.card_present = true ∧ w.connect_rc = SCErr.ok))
        ∧ (Release.freeCard ∈ (card_open w).2.2 ↔ w.alloc_ok = true)) := by
  refine ⟨?_, rfl, ?_⟩
  · intro w ha he hr hp
    unfold card_open
    rw [if_neg (by simp [ha]), if_neg (by simp [he]), if_neg (by omega), if_pos hp]
    rfl
  · intro w h
    unfold card_open at h ⊢
    split_ifs at h ⊢ with h1 h2 h3 h4 h5 h6
    · simp_all [card_close]
    · simp_all [card_close]
    · simp_all [card_close]
      try omega
    · simp_all [card_close]
      try omega
    · simp_all [card_close]
      try omega
    · simp_all [card_close]
      try omega
    · exact absurd rfl h

/-- Claim C9 witness: opening with no card present at a concrete
oracle, applying open_close_resources. -/
theorem open_close_resources_witness :
    card_open wNoCard = (GnupgRC.cardNotPresent, none, [Release.releaseCtx, Release.freeCard]) :=
  open_close_resources.1 wNoCard rfl rfl (by decide) rfl

/-- Claim C2 counterexample: with an unbound session, a public
operation (enumerate keypairs, and likewise sign) does not trigger the
binding attempt; it fails with GNUPG_Card_Not_Initialized instead, so
the claim that the first call to any of the four public operations
triggers binding is false on the code. -/
theorem ops_do_not_bind_counterexample :
    (card_enum_keypairs wBase (some cardUnbound) 0 true).bind_attempted = false
    ∧ (card_enum_keypairs wBase (some cardUnbound) 0 true).rc = GnupgRC.cardNotInitialized
    ∧ (card_sign wBase (some cardUnbound) true 32 true true true).bind_attempted = false
    ∧ (card_sign wBase (some cardUnbound) true 32 true true true).rc
        = GnupgRC.cardNotInitialized := by
  refine ⟨rfl, by decide, rfl, by decide⟩

/-- Claim C2 (amended): serial retrieval is the one entry point that
triggers the binding attempt: called on an unbound session it attempts
the binding and leaves the session initialized, called on an
initialized session it does not re-attempt; any session state a serial
call returns is initialized, so a subsequent call never re-attempts
(binding happens at most once); the four public operations never
attempt binding and, with valid arguments, fail with
GNUPG_Card_Not_Initialized while the session is unbound. -/
theorem lazy_binding_amended :
    (∀ (w : World) (c : CARD), c.fnc.initialized = false →
        (card_get_serial_and_stamp w (some c)).bind_attempted = true
        ∧ (card_get_serial_and_stamp w (some c)).card = some (bindBackend w c)
        ∧ (bindBackend w c).fnc.initialized = true)
    ∧ (∀ (w : World) (c : CARD), c.fnc.initialized = true →
        (card_get_serial_and_stamp w (some c)).bind_attempted = false
        ∧ (card_get_serial_and_stamp w (some c)).card = some c)
    ∧ (∀ (w w' : World) (c c' : CARD),
        (card_get_serial_and_stamp w (some c)).card = some c' →
        (card_get_serial_and_stamp w' (some c')).bind_attempted = false)
    ∧ (∀ (w : World) (c : CARD) (idx : Int) (kg : Bool), c.fnc.initialized = false →
        (card_enum_keypairs w (some c) idx kg).bind_attempted = false
        ∧ (kg = true → 0 ≤ idx →
            (card_enum_keypairs w (some c) idx kg).rc = GnupgRC.cardNotInitialized))
    ∧ (∀ (w : World) (c : CARD) (ci ce cn : Bool), c.fnc.initialized = false →
        (card_read_cert w (some c) ci ce cn).bind_attempted = false
        ∧ (ci = true → ce = true → cn = true →
            (card_read_cert w (some c) ci ce cn).rc = GnupgRC.cardNotInitialized))
    ∧ (∀ (w : World) (c : CARD) (ia : Bool) (il : Nat) (oa ol pc : Bool),
        c.fnc.initialized = false →
        (card_sign w (some c) ia il oa ol pc).bind_attempted = false
        ∧ (ia = true → il ≠ 0 → oa = true → ol = true → pc = true →
            (card_sign w (some c) ia il oa ol pc).rc = GnupgRC.cardNotInitialized))
    ∧ (∀ (w : World) (c : CARD) (ia : Bool) (il : Nat) (oa ol pc : Bool),
        c.fnc.initialized = false →
        (card_decipher w (some c) ia il oa ol pc).bind_attempted = false
        ∧ (ia = true → il ≠ 0 → oa = true → ol = true → pc = true →
            (card_decipher w (some c) ia il oa ol pc).rc = GnupgRC.cardNotInitialized)) := by
  refine ⟨?_, ?_, ?_, ?_, ?_, ?_, ?_⟩
  · intro w c h
    dsimp only [card_get_serial_and_stamp]
    rw [if_neg (by simp [h])]
    exact ⟨(serialBody_proj w (bindBackend w c) true).2,
      (serialBody_proj w (bindBackend w c) true).1, bindBackend_initialized w c⟩
  · intro w c h
    dsimp only [card_get_serial_and_stamp]
    rw [if_pos h]
    exact ⟨(serialBody_proj w c false).2, (serialBody_proj w c false).1⟩
  · intro w w' c c' h
    dsimp only [card_get_serial_and_stamp] at h
    by_cases hc : c.fnc.initialized = true
    · rw [if_pos hc] at h
      rw [(serialBody_proj w c false).1] at h
      have hcc : c = c' := Option.some.inj h
      subst hcc
      dsimp only [card_get_serial_and_stamp]
      rw [if_pos hc]
      exact (serialBody_proj w' c false).2
    · rw [if_neg hc] at h
      rw [(serialBody_proj w (bindBackend w c) true).1] at h
      have hcc : bindBackend w c = c' := Option.some.inj h
      subst hcc
      dsimp only [card_get_serial_and_stamp]
      rw [if_pos (bindBackend_initialized w c)]
      exact (serialBody_proj w' (bindBackend w c) false).2
  · intro w c idx kg h
    constructor
    · dsimp only [card_enum_keypairs]
      split_ifs <;> rfl
    · intro hkg hidx
      dsimp only [card_enum_keypairs]
      rw [if_neg (by simp [hkg]), if_neg (by omega), if_pos h]
  · intro w c ci ce cn h
    constructor
    · dsimp only [card_read_cert]
      split_ifs <;> rfl
    · intro h1 h2 h3
      dsimp only [card_read_cert]
      rw [if_neg (by simp [h1, h2, h3]), if_pos h]
  · intro w c ia il oa ol pc h
    constructor
    · dsimp only [card_sign]
      split_ifs <;> rfl
    · intro h1 h2 h3 h4 h5
      dsimp only [card_sign]
      rw [if_neg (by simp [h1, h2, h3, h4, h5]), if_pos h]
  · intro w c ia il oa ol pc h
    constructor
    · dsimp only [card_decipher]
      split_ifs <;> rfl
    · intro h1 h2 h3 h4 h5
      dsimp only [card_decipher]
      rw [if_neg (by simp [h1, h2, h3, h4, h5]), if_pos h]

/-- Claim C2 witness: at a concrete unbound session, serial retrieval
attempts the binding while enumerate keypairs does not, applying
lazy_binding_amended. -/
theorem lazy_binding_amended_witness :
    (card_get_serial_and_stamp wBase (some cardUnbound)).bind_attempted = true
    ∧ (card_enum_keypairs wBase (some cardUnbound) 0 true).rc = GnupgRC.cardNotInitialized :=
  ⟨(lazy_binding_amended.1 wBase cardUnbound rfl).1,
   (lazy_binding_amended.2.2.2.1 wBase cardUnbound 0 true rfl).2 rfl (by decide)⟩

/-- Claim C3: when the rendered GDO serial is exactly the placeholder
D27600000000000000000000 and a PKCS-15 application is bound, serial
retrieval discards the rendered string and returns FF0100 followed by
the application-supplied identifier, which defaults to the empty
string when unavailable. -/
theorem placeholder_serial_quirkA :
    ∀ (w : World) (c : CARD),
      c.fnc.initialized = true → c.p15card = true →
      w.alloc_ok = true → w.select_rc = SCErr.ok →
      w.gdo_is_working_ef = true → w.gdo_is_transparent = true →
      0 < w.gdo_size → w.gdo_size < 256 → w.read_rc = (w.gdo_size : Int) →
      find_iccsn true w.gdo w.gdo_size = Except.ok "D27600000000000000000000" →
      (card_get_serial_and_stamp w (some c)).rc = GnupgRC.ok
      ∧ (card_get_serial_and_stamp w (some c)).serial
          = some ("FF0100" ++ (w.p15_serial_number.getD "")) := by
  intro w c hinit hp15 ha hsel hef htr hsz1 hsz2 hrd hiccsn
  dsimp only [card_get_serial_and_stamp]
  rw [if_pos hinit]
  unfold serialBody
  rw [if_neg (by simp [hsel])]
  rw [if_neg (by simp [hef, htr])]
  rw [if_neg (by omega)]
  rw [if_neg (by omega)]
  rw [if_neg (by simp [hrd])]
  rw [ha, hiccsn]
  dsimp only [serialQuirks]
  rw [if_pos ⟨hp15, rfl⟩, if_pos ha]
  exact ⟨rfl, rfl⟩

/-- Claim C3 witness: the German placeholder card with identifier
ABC123 yields FF0100ABC123, applying placeholder_serial_quirkA. -/
theorem placeholder_serial_quirkA_witness :
    (card_get_serial_and_stamp wBase (some cardP15)).serial
      = some ("FF0100" ++ (wBase.p15_serial_number.getD ""))
    ∧ "FF0100" ++ (wBase.p15_serial_number.getD "") = "FF0100ABC123" :=
  ⟨(placeholder_serial_quirkA wBase cardP15 rfl rfl rfl rfl rfl rfl (by decide) (by decide)
      (by decide) (by decide)).2,
   by decide⟩

/-- Claim C4: when the rendered serial does not take quirk form A but
its first two characters are FF, serial retrieval returns FF0000
prepended to the rendered string; the placeholder rewrite (form A,
checked first) and the FF rewrite (form B) are mutually exclusive,
because the placeholder never starts with FF. -/
theorem ff_serial_quirkB :
    (∀ (w : World) (c : CARD) (s : String),
        c.fnc.initialized = true →
        w.alloc_ok = true → w.select_rc = SCErr.ok →
        w.gdo_is_working_ef = true → w.gdo_is_transparent = true →
        0 < w.gdo_size → w.gdo_size < 256 → w.read_rc = (w.gdo_size : Int) →
        find_iccsn true w.gdo w.gdo_size = Except.ok s →
        startsFF s = true →
        (card_get_serial_and_stamp w (some c)).rc = GnupgRC.ok
        ∧ (card_get_serial_and_stamp w (some c)).serial = some ("FF0000" ++ s))
    ∧ (∀ s : String, s = "D27600000000000000000000" → startsFF s = false) := by
  constructor
  · intro w c s hinit ha hsel hef htr hsz1 hsz2 hrd hiccsn hFF
    have hsD : s ≠ "D27600000000000000000000" := by
      intro he
      rw [he] at hFF
      exact absurd hFF (by decide)
    dsimp only [card_get_serial_and_stamp]
    rw [if_pos hinit]
    unfold serialBody
    rw [if_neg (by simp [hsel])]
    rw [if_neg (by simp [hef, htr])]
    rw [if_neg (by omega)]
    rw [if_neg (by omega)]
    rw [if_neg (by simp [hrd])]
    rw [ha, hiccsn]
    dsimp only [serialQuirks]
    rw [if_neg (fun hand => hsD hand.2), if_pos hFF, if_pos ha]
    exact ⟨rfl, rfl⟩
  · intro s hs
    rw [hs]
    decide

/-- Claim C4 witness: the rendered serial FF112233 becomes
FF0000FF112233, applying ff_serial_quirkB. -/
theorem ff_serial_quirkB_witness :
    (card_get_serial_and_stamp wFF (some cardP15)).serial = some ("FF0000" ++ "FF112233")
    ∧ "FF0000" ++ "FF112233" = "FF0000FF112233" :=
  ⟨(ff_serial_quirkB.1 wFF cardP15 "FF112233" rfl rfl rfl rfl rfl (by decide) (by decide)
      (by decide) (by decide) (by decide)).2,
   by decide⟩
